import Mathlib

/-
Verification development for the kebogyro repository.

Shallow embedding of:
  * the streaming tool-call orchestration loop
    (src/kebogyro/wrapper.py, LLMClientWrapper.chat_completion_with_tools),
  * the tool-loading path (src/kebogyro/wrapper.py, LLMClientWrapper.load_tools),
  * the MCP catalog fan-out (src/kebogyro/mcp_adapter/client.py,
    BBServerMCPClient.get_tools),
  * the streaming content filter (web_ui/core_logic.py, ContentBuffer and the
    tool-call-JSON detectors).

Python strings are modelled as lists of code points (List Char), written
`PyStr`; a Python string is falsy exactly when the list is empty, which also
covers `None` for the optional string fields of streamed deltas (both are
falsy in every truthiness test the embedded code performs).  The Python
standard-library function json.loads is external to the repository and is
modelled by an abstract parameter: `jsonOk` (success of parsing) for the
wrapper, `jsonKeys` (key set of the parsed dict, `none` on failure or
non-dict) for the content filter.
-/

namespace Kebogyro

/-! ### Python string primitives -/

abbrev PyStr := List Char

/-- Code points of a Lean string literal, used to write `PyStr` literals. -/
def ps (s : String) : PyStr := s.data

/-- Python `str.startswith`. -/
def pyStartsWith : PyStr → PyStr → Bool
  | _, [] => true
  | [], _ :: _ => false
  | c :: cs, p :: pr => c == p && pyStartsWith cs pr

/-- Python `str.endswith`. -/
def pyEndsWith (s pat : PyStr) : Bool := pyStartsWith s.reverse pat.reverse

/-- Python `pat in s` (substring containment). Only used with nonempty `pat`. -/
def strContains (s pat : PyStr) : Bool :=
  (List.range (s.length + 1)).any (fun i => pyStartsWith (s.drop i) pat)

/-- Python `str.lower` (the code only feeds it ASCII-relevant patterns). -/
def pyLower (s : PyStr) : PyStr := s.map Char.toLower

/-- Python `str.strip()` with no argument (strip leading/trailing whitespace). -/
def pyStrip (s : PyStr) : PyStr :=
  ((s.dropWhile Char.isWhitespace).reverse.dropWhile Char.isWhitespace).reverse

/-- Helper for `pySplitOn` (accumulates the current field reversed). -/
def pySplitOnAux (c : Char) : PyStr → PyStr → List PyStr
  | cur, [] => [cur.reverse]
  | cur, d :: rest =>
      if d == c then cur.reverse :: pySplitOnAux c [] rest
      else pySplitOnAux c (d :: cur) rest

/-- Python `str.split(c)` for a one-character separator. -/
def pySplitOn (c : Char) (s : PyStr) : List PyStr := pySplitOnAux c [] s

/-- Python `s[-k:]` (the last `k` code points). -/
def pyTakeRight (s : PyStr) (k : Nat) : PyStr := s.drop (s.length - k)

/-- Python `str.isidentifier`, restricted to the ASCII identifiers the filter
compares against (the source only meets ASCII content here). -/
def pyIsIdentifier (s : PyStr) : Bool :=
  match s with
  | [] => false
  | c :: cs => (c.isAlpha || c == '_') && cs.all (fun d => d.isAlphanum || d == '_')

/-- Python `str.isalnum` (ASCII fragment, as above). -/
def pyIsAlnum (s : PyStr) : Bool :=
  match s with
  | [] => false
  | _ => s.all Char.isAlphanum

/-- Python `str.replace(pat, "")` for a one-character pattern. -/
def pyEraseChar (c : Char) (s : PyStr) : PyStr := s.filter (fun d => !(d == c))

/-! ### web_ui/core_logic.py — tool-call-JSON detection and ContentBuffer

`jsonKeys s` models `json.loads(s)`: `some keys` when `s` parses as a JSON
dict with that key set, `none` when parsing fails or the parsed value is not
a dict (the code only consults the parse through `isinstance(parsed, dict)`,
`'name' in parsed` and `'arguments' in parsed`). -/

/-- The shared body of `_is_tool_call_json` and `_is_markdown_tool_call_json`:
brace-delimited, mentions `"name"` or `"arguments"`, contains `tool`
case-insensitively, and parses as a dict with both keys. -/
def isToolCallJsonCore (jsonKeys : PyStr → Option (List PyStr)) (cs : PyStr) : Bool :=
  if pyStartsWith cs (ps "\x7b") && pyEndsWith cs (ps "\x7d") &&
      (strContains cs (ps "\"name\"") || strContains cs (ps "\"arguments\"")) &&
      strContains (pyLower cs) (ps "tool") then
    match jsonKeys cs with
    | some keys => keys.contains (ps "name") && keys.contains (ps "arguments")
    | none => false
  else false

/-- `_is_markdown_tool_call_json` (web_ui/core_logic.py). -/
def isMarkdownToolCallJson (jsonKeys : PyStr → Option (List PyStr)) (content : PyStr) : Bool :=
  if content = [] || pyStrip content = [] then false
  else
    let cs := pyStrip content
    if pyStartsWith cs (ps "```") && pyEndsWith cs (ps "```") then
      let lines := pySplitOn '\n' cs
      if lines.length < 3 then false
      else
        isToolCallJsonCore jsonKeys
          (pyStrip (List.intercalate (ps "\n") ((lines.drop 1).dropLast)))
    else false

/-- `_is_tool_call_json` (web_ui/core_logic.py). -/
def isToolCallJson (jsonKeys : PyStr → Option (List PyStr)) (content : PyStr) : Bool :=
  if content = [] || pyStrip content = [] then false
  else
    let cs := pyStrip content
    if isToolCallJsonCore jsonKeys cs then true
    else isMarkdownToolCallJson jsonKeys cs

/-- `ContentBuffer._contains_tool_call_pattern`. -/
def containsToolCallPattern (content : PyStr) : Bool :=
  if content = [] || pyStrip content = [] then false
  else
    let cs := pyStrip content
    let hasJsonStructure :=
      [ps "\x7b", ps "\x7d", ps ":", ps "\""].any (fun m => strContains cs m)
    let hasToolPattern :=
      [ps "\"name\"", ps "\"arguments\"", ps "code_assistant_tool",
       ps "\"code_description\"", ps "\"current_code_context\""].any
        (fun p => strContains (pyLower content) (pyLower p))
    hasJsonStructure && hasToolPattern

/-- `ContentBuffer._is_json_start`: a lone `{` or `[` is excluded, anything
else beginning with `{` or `[` counts. -/
def isJsonStart (content : PyStr) : Bool :=
  if content = [] || pyStrip content = [] then false
  else
    let cs := pyStrip content
    if cs = ps "\x7b" || cs = ps "[" then false
    else pyStartsWith cs (ps "\x7b") || pyStartsWith cs (ps "[")

/-- `ContentBuffer._buffer_looks_like_markdown_start`. -/
def bufferLooksLikeMarkdownStart (buffer : PyStr) : Bool :=
  if buffer = [] then false else pyStartsWith (pyStrip buffer) (ps "```")

/-- `ContentBuffer._is_markdown_continuation`.  Python's `split` always
returns at least one field, so the `len(buffer_lines) > 0` branch of the
source is the one modelled (the other is unreachable). -/
def isMarkdownContinuation (buffer content : PyStr) : Bool :=
  if content = [] then false
  else if bufferLooksLikeMarkdownStart buffer then
    let firstLine := pyStrip ((pySplitOn '\n' buffer).headD [])
    if firstLine = ps "```json" || firstLine = ps "```" then
      !(pyStrip content = ps "```" && strContains (buffer.drop 3) (ps "```"))
    else false
  else false

/-- `ContentBuffer._looks_like_streaming_json_start`. -/
def looksLikeStreamingJsonStart (buffer : PyStr) : Bool :=
  if buffer = [] then false
  else
    let bs := pyStrip buffer
    if pyStartsWith bs (ps "\x7b") then
      let hasQuotes := strContains bs (ps "\"")
      let hasColons := strContains bs (ps ":")
      if hasQuotes && hasColons then true
      else
        if pyStartsWith bs (ps "\x7b") && pyEndsWith bs (ps "\x7d") && bs.length > 2 then
          let inner := pyStrip ((bs.drop 1).dropLast)
          if pyIsIdentifier inner || pyIsAlnum (pyEraseChar '.' (pyEraseChar '_' inner)) then
            false
          else false
        else false
    else false

/-- `ContentBuffer._looks_like_json_continuation`. -/
def looksLikeJsonContinuation (content : PyStr) : Bool :=
  if content = [] || pyStrip content = [] then false
  else
    let cs := pyStrip content
    [',', ':', '}', ']', '{', '['].any (fun c => cs.any (fun d => d == c))

/-- The state of `ContentBuffer` (web_ui/core_logic.py). -/
structure ContentBuffer where
  buffer : PyStr
  maxBufferSize : Nat
deriving DecidableEq, Repr

/-- `ContentBuffer()` with the default `max_buffer_size`. -/
def mkContentBuffer : ContentBuffer := { buffer := [], maxBufferSize := 2000 }

/-- `ContentBuffer.add_chunk`: returns the updated buffer state together with
`(content_to_yield, should_filter)`.  The size cap keeps the last
`ceil(max_buffer_size / 2)` code points, matching the Python slice
`self.buffer[-self.max_buffer_size//2:]`. -/
def addChunk (jsonKeys : PyStr → Option (List PyStr)) (self : ContentBuffer)
    (chunk : PyStr) : ContentBuffer × PyStr × Bool :=
  if chunk = [] then (self, ([], false))
  else
    let buf0 := self.buffer ++ chunk
    let buf :=
      if buf0.length > self.maxBufferSize then
        pyTakeRight buf0 ((self.maxBufferSize + 1) / 2)
      else buf0
    if isToolCallJson jsonKeys buf then
      ({ self with buffer := [] }, ([], true))
    else
      let bufferHasToolPatterns := containsToolCallPattern buf
      let chunkHasToolPatterns := containsToolCallPattern chunk
      let chunkIsJsonStart := isJsonStart chunk
      let chunkIsMarkdownStart := pyStartsWith (pyStrip chunk) (ps "```")
      let markdownContinuation := isMarkdownContinuation buf chunk
      let streamingJson := looksLikeStreamingJsonStart buf
      let shouldBuffer :=
        chunkHasToolPatterns || bufferHasToolPatterns || chunkIsJsonStart ||
        chunkIsMarkdownStart || markdownContinuation || streamingJson
      if !chunkHasToolPatterns && !chunkIsJsonStart && !markdownContinuation &&
          !streamingJson && bufferHasToolPatterns &&
          !looksLikeJsonContinuation chunk then
        ({ self with buffer := [] }, (buf, false))
      else if shouldBuffer then
        ({ self with buffer := buf }, ([], false))
      else
        ({ self with buffer := [] }, (buf, false))

/-! ### src/kebogyro/wrapper.py — data model of the streaming loop -/

/-- One tool-call fragment inside a streamed delta
(`delta.tool_calls[j]`).  Optional string fields are modelled by `PyStr`
with `[]` for both `None` and `""` — the source only tests them for
truthiness, which identifies the two. -/
structure ToolCallDelta where
  index : Nat
  id : PyStr
  type : PyStr
  name : PyStr
  arguments : PyStr
deriving DecidableEq, Repr

/-- One streamed chunk's delta (`chunk.choices[0].delta`). -/
structure StreamDelta where
  content : PyStr
  reasoning : PyStr
  toolCalls : List ToolCallDelta
deriving DecidableEq, Repr

/-- An in-progress entry of `accumulated_tool_calls_raw`. -/
structure RawToolCall where
  id : PyStr
  type : PyStr
  name : PyStr
  arguments : PyStr
deriving DecidableEq, Repr

/-- A finalized `ChatCompletionMessageToolCall`. -/
structure ChatToolCall where
  id : PyStr
  type : PyStr
  name : PyStr
  arguments : PyStr
deriving DecidableEq, Repr

/-- Conversation-history entries (`ChatCompletion*MessageParam`). -/
inductive ChatMessage where
  | system (content : PyStr)
  | user (content : PyStr)
  | assistant (content : Option PyStr) (toolCalls : Option (List ChatToolCall))
  | tool (toolCallId : PyStr) (content : PyStr)
deriving DecidableEq, Repr

/-- The tagged events yielded by `chat_completion_with_tools`.  The payloads
keep exactly the parts the claims are about (`AIMessageChunk` fields). -/
inductive StreamEvent where
  | chunk (raw : StreamDelta)
  | messages (content : PyStr)
  | reasoningChunk (reasoning : PyStr)
  | toolOutputChunk (name content : PyStr)
  | toolOutputChunkError (name content : PyStr)
  | values (history : List ChatMessage)
  | error (message : PyStr)
deriving DecidableEq, Repr

/-- The Python event-tag string of a `StreamEvent`. -/
def eventTag : StreamEvent → PyStr
  | .chunk _ => ps "chunk"
  | .messages _ => ps "messages"
  | .reasoningChunk _ => ps "reasoning_chunk"
  | .toolOutputChunk _ _ => ps "tool_output_chunk"
  | .toolOutputChunkError _ _ => ps "tool_output_chunk_error"
  | .values _ => ps "values"
  | .error _ => ps "error"

/-- Events tagged `"error"`. -/
def isErrorEvent : StreamEvent → Bool
  | .error _ => true
  | _ => false

/-- Events tagged `"values"`. -/
def isValuesEvent : StreamEvent → Bool
  | .values _ => true
  | _ => false

/-! ### Tool-call accumulation (wrapper.py lines 215-238) -/

/-- The placeholder id `f"call_{uuid.uuid4().hex}"`: uuid4 freshness is
modelled by a counter threaded through the turn. -/
def placeholderId (k : Nat) : PyStr := ps "call_" ++ (toString k).data

/-- The placeholder entry appended while `len(accumulated) <= index`. -/
def emptyRawToolCall (k : Nat) : RawToolCall :=
  { id := placeholderId k, type := ps "function", name := [], arguments := [] }

/-- `n` iterations of the padding loop body. -/
def padAux : Nat → List RawToolCall → Nat → List RawToolCall × Nat
  | 0, acc, k => (acc, k)
  | n + 1, acc, k => padAux n (acc ++ [emptyRawToolCall k]) (k + 1)

/-- `while len(accumulated_tool_calls_raw) <= index: append placeholder` —
the loop appends exactly `index + 1 - len` entries (none when `len > index`). -/
def padToolCalls (acc : List RawToolCall) (index k : Nat) : List RawToolCall × Nat :=
  padAux (index + 1 - acc.length) acc k

/-- Functional update at one list position (the in-place mutation of
`accumulated_tool_calls_raw[index]`). -/
def listUpd : List α → Nat → (α → α) → List α
  | [], _, _ => []
  | x :: xs, 0, f => f x :: xs
  | x :: xs, i + 1, f => x :: listUpd xs i f

/-- The field updates applied to `current_tool_call` for one delta:
id/type/name overwritten when present, arguments appended when present. -/
def updateRawToolCall (d : ToolCallDelta) (cur0 : RawToolCall) : RawToolCall :=
  let cur1 := if d.id ≠ [] then { cur0 with id := d.id } else cur0
  let cur2 := if d.type ≠ [] then { cur1 with type := d.type } else cur1
  let cur3 := if d.name ≠ [] then { cur2 with name := d.name } else cur2
  if d.arguments ≠ [] then { cur3 with arguments := cur3.arguments ++ d.arguments }
  else cur3

/-- Processing one `ToolCallDelta`: pad, then update the entry at its index. -/
def applyToolCallDelta (st : List RawToolCall × Nat) (d : ToolCallDelta) :
    List RawToolCall × Nat :=
  let p := padToolCalls st.1 d.index st.2
  (listUpd p.1 d.index (updateRawToolCall d), p.2)

/-- The accumulator list after a sequence of tool-call deltas, starting from
an empty list and fresh-id counter `k`. -/
def accumulateToolCallDeltas (ds : List ToolCallDelta) (k : Nat) : List RawToolCall :=
  (ds.foldl applyToolCallDelta ([], k)).1

/-! ### Turn accumulation (wrapper.py lines 192-238) -/

/-- The per-turn accumulators. -/
structure TurnAcc where
  content : PyStr
  reasoning : PyStr
  toolCallsRaw : List RawToolCall
  nextFresh : Nat
deriving DecidableEq, Repr

/-- State advance for one streamed delta. -/
def stepDeltaAcc (st : TurnAcc) (d : StreamDelta) : TurnAcc :=
  let tc := d.toolCalls.foldl applyToolCallDelta (st.toolCallsRaw, st.nextFresh)
  { content := if d.content ≠ [] then st.content ++ d.content else st.content,
    reasoning := if d.reasoning ≠ [] then st.reasoning ++ d.reasoning else st.reasoning,
    toolCallsRaw := tc.1,
    nextFresh := tc.2 }

/-- Events yielded while consuming one streamed delta (`stream` guards every
yield in the source). -/
def stepDeltaEvents (stream : Bool) (d : StreamDelta) : List StreamEvent :=
  (if stream then [StreamEvent.chunk d] else [])
    ++ (if d.content ≠ [] && stream then [StreamEvent.messages d.content] else [])
    ++ (if d.reasoning ≠ [] && stream then [StreamEvent.reasoningChunk d.reasoning] else [])

/-- The `async for chunk in response_stream` loop. -/
def runTurnAux (stream : Bool) : List StreamDelta → TurnAcc → TurnAcc × List StreamEvent
  | [], st => (st, [])
  | d :: rest, st =>
      let r := runTurnAux stream rest (stepDeltaAcc st d)
      (r.1, stepDeltaEvents stream d ++ r.2)

/-- A whole model turn from empty accumulators and fresh-id counter `k`. -/
def runTurnStream (stream : Bool) (deltas : List StreamDelta) (k : Nat) :
    TurnAcc × List StreamEvent :=
  runTurnAux stream deltas
    { content := [], reasoning := [], toolCallsRaw := [], nextFresh := k }

/-! ### Finalization (wrapper.py lines 240-257) -/

/-- The string `"{}"` substituted for unparsable argument strings. -/
def emptyObjStr : PyStr := ps "\x7b\x7d"

/-- Finalize one accumulated tool call: validate the argument string with
`json.loads` (modelled by `jsonOk`), coercing failures to `"{}"`; the message
tool call is rebuilt with `type="function"`. -/
def finalizeRawToolCall (jsonOk : PyStr → Bool) (tc : RawToolCall) : ChatToolCall :=
  { id := tc.id, type := ps "function", name := tc.name,
    arguments := if jsonOk tc.arguments then tc.arguments else emptyObjStr }

/-- `final_tool_calls_list` built from the raw accumulator. -/
def finalizeToolCalls (jsonOk : PyStr → Bool) (raw : List RawToolCall) :
    List ChatToolCall :=
  raw.map (finalizeRawToolCall jsonOk)

/-- The assistant message appended at end of turn (wrapper.py lines 259-265):
`content` is `None` when empty, `tool_calls` is `None` when the list is empty. -/
def assistantOf (acc : TurnAcc) (tcs : List ChatToolCall) : ChatMessage :=
  ChatMessage.assistant (if acc.content ≠ [] then some acc.content else none)
    (if tcs ≠ [] then some tcs else none)

/-! ### Tool execution (wrapper.py lines 270-339)

The catalog `_raw_available_tools_from_mcp.values()` is modelled by the list
of live tool names; `exec name args` is the execution oracle for
`tool_to_execute.call(...)` — `.ok out` gives the stringified output (the
tuple-unwrapping `str(raw[0])` is folded into the oracle), `.error e` a raised
exception rendered as `str(tool_e)`. -/

/-- The branch taken once the argument string parsed: resolve the tool by
exact name, execute it, and build the Tool message plus streamed events. -/
def execResolvedCall (catalog : List PyStr) (exec : PyStr → PyStr → Except PyStr PyStr)
    (stream : Bool) (tc : ChatToolCall) : ChatMessage × List StreamEvent :=
  if catalog.contains tc.name then
    match exec tc.name tc.arguments with
    | Except.ok output =>
        (ChatMessage.tool tc.id output,
         if stream then [StreamEvent.toolOutputChunk tc.name output] else [])
    | Except.error e =>
        let content := ps "Error executing tool '" ++ tc.name ++ ps "': " ++ e
        (ChatMessage.tool tc.id content,
         if stream then [StreamEvent.toolOutputChunkError tc.name content] else [])
  else
    let content :=
      ps "Error: Tool '" ++ tc.name ++ ps "' not found. Ensure tool is correctly loaded in MCP."
    (ChatMessage.tool tc.id content,
     if stream then [StreamEvent.toolOutputChunkError tc.name content] else [])

/-- One iteration of the `for tool_call in tool_calls_from_response` loop:
the `json.loads(tool_args_str)` guard first (its failure branch appends an
error Tool message and continues), then resolution and execution. -/
def execOneCall (jsonOk : PyStr → Bool) (catalog : List PyStr)
    (exec : PyStr → PyStr → Except PyStr PyStr) (stream : Bool)
    (tc : ChatToolCall) : ChatMessage × List StreamEvent :=
  if jsonOk tc.arguments then execResolvedCall catalog exec stream tc
  else
    let content :=
      ps "Error: Malformed JSON arguments for tool '" ++ tc.name ++
        ps "'. Arguments must be valid JSON."
    (ChatMessage.tool tc.id content,
     if stream then [StreamEvent.toolOutputChunkError tc.name content] else [])

/-- The whole per-turn execution loop: Tool messages accumulate into
`tool_outputs_messages` in call order; events stream in call order. -/
def execToolCalls (jsonOk : PyStr → Bool) (catalog : List PyStr)
    (exec : PyStr → PyStr → Except PyStr PyStr) (stream : Bool) :
    List ChatToolCall → List ChatMessage × List StreamEvent
  | [] => ([], [])
  | tc :: rest =>
      let one := execOneCall jsonOk catalog exec stream tc
      let r := execToolCalls jsonOk catalog exec stream rest
      (one.1 :: r.1, one.2 ++ r.2)

/-! ### The orchestration loop (wrapper.py lines 149-356) -/

/-- The collaborators of one `chat_completion_with_tools` run.  `model h` is
the completion transport called on history `h`: `.ok deltas` is a streamed
response, `.error e` an exception raised while creating or consuming the
stream (modelled at request time).  The catalog is fixed for the run
(`load_tools` is modelled separately). -/
structure LoopConfig where
  jsonOk : PyStr → Bool
  catalog : List PyStr
  exec : PyStr → PyStr → Except PyStr PyStr
  model : List ChatMessage → Except PyStr (List StreamDelta)
  stream : Bool

/-- `max_iterations` (wrapper.py line 170). -/
def maxIterations : Nat := 15

/-- The post-loop iteration-limit error message (wrapper.py line 356). -/
def recursionLimitMessage : PyStr :=
  ps "Recursion limit reached without a final answer. Max iterations: "
    ++ (toString maxIterations).data ++ ps ". Please refine your prompt or tools."

/-- The `while iteration_count < max_iterations` loop.  `fuel` makes the
recursion structural; every entry point passes `fuel = maxIterations - count`,
so the guard `count < maxIterations` is exactly the source's loop condition.
Returns the yielded events, the final conversation history, and the final
`iteration_count`. -/
def chatLoopAux (cfg : LoopConfig) :
    Nat → List ChatMessage → Nat → Nat → List StreamEvent × List ChatMessage × Nat
  | 0, history, _, count => ([], history, count)
  | fuel + 1, history, k, count =>
      if count < maxIterations then
        match cfg.model history with
        | Except.error e => ([StreamEvent.error e], history, count + 1)
        | Except.ok deltas =>
            let tr := runTurnStream cfg.stream deltas k
            let tcs := finalizeToolCalls cfg.jsonOk tr.1.toolCallsRaw
            let hist1 := history ++ [assistantOf tr.1 tcs]
            if tcs ≠ [] then
              let ex := execToolCalls cfg.jsonOk cfg.catalog cfg.exec cfg.stream tcs
              let rc := chatLoopAux cfg fuel (hist1 ++ ex.1) tr.1.nextFresh (count + 1)
              (tr.2 ++ ex.2 ++ rc.1, rc.2.1, rc.2.2)
            else if tr.1.content ≠ [] then
              (tr.2 ++ [StreamEvent.values hist1], hist1, count + 1)
            else
              let rc := chatLoopAux cfg fuel hist1 tr.1.nextFresh (count + 1)
              (tr.2 ++ rc.1, rc.2.1, rc.2.2)
      else ([], history, count)

/-- `any(msg.get("role") == "system" for msg in history)`. -/
def hasSystemMessage (h : List ChatMessage) : Bool :=
  h.any (fun m => match m with | .system _ => true | _ => false)

/-- System-prompt insertion (wrapper.py lines 152-157). -/
def ensureSystem (systemPrompt : Option PyStr) (h : List ChatMessage) :
    List ChatMessage :=
  match systemPrompt with
  | none => h
  | some s => if hasSystemMessage h then h else ChatMessage.system s :: h

/-- The test on `history[-1]` (wrapper.py line 160). -/
def isSameUserMessage (m : ChatMessage) (u : PyStr) : Bool :=
  match m with
  | .user c => c == u
  | _ => false

/-- Idempotent user-turn append (wrapper.py lines 159-164). -/
def appendUserGuard (h : List ChatMessage) (u : PyStr) : List ChatMessage :=
  match h.getLast? with
  | none => h ++ [ChatMessage.user u]
  | some m => if isSameUserMessage m u then h else h ++ [ChatMessage.user u]

/-- The pre-loop history preparation, in source order. -/
def prepTurn (systemPrompt : Option PyStr) (h : List ChatMessage) (u : PyStr) :
    List ChatMessage :=
  appendUserGuard (ensureSystem systemPrompt h) u

/-- One full `chat_completion_with_tools` run: prepare history, run the loop
from `iteration_count = 0` and fresh-id counter 0, then the post-loop
`if iteration_count >= max_iterations` error.  Returns (events, history,
final iteration count). -/
def chatCompletionWithTools (cfg : LoopConfig) (systemPrompt : Option PyStr)
    (history0 : List ChatMessage) (userMessageContent : PyStr) :
    List StreamEvent × List ChatMessage × Nat :=
  let h := prepTurn systemPrompt history0 userMessageContent
  let r := chatLoopAux cfg maxIterations h 0 0
  if r.2.2 ≥ maxIterations then
    (r.1 ++ [StreamEvent.error recursionLimitMessage], r.2.1, r.2.2)
  else r

/-! ### Catalog acquisition

`BBServerMCPClient.get_tools` (mcp_adapter/client.py lines 124-148): one
fetch task per connection, joined with `asyncio.gather` (no
`return_exceptions`), so one task's exception propagates out of the whole
fan-out.  The model traverses the connections in list order and propagates
the first failing fetch; which of several failures is surfaced differs from
asyncio's scheduling, but `ok`-versus-`error` agrees.  Tools are modelled by
their names. -/

/-- The fan-out of `_fetch_and_convert` tasks joined by `asyncio.gather`. -/
def gatherToolFetches (fetch : PyStr → Except PyStr (List PyStr)) :
    List PyStr → Except PyStr (List PyStr)
  | [] => Except.ok []
  | c :: rest =>
      match fetch c with
      | Except.error e => Except.error e
      | Except.ok ts =>
          match gatherToolFetches fetch rest with
          | Except.error e => Except.error e
          | Except.ok rs => Except.ok (ts ++ rs)

/-- `Except.error` discriminator. -/
def exceptIsError : Except PyStr (List PyStr) → Bool
  | Except.error _ => true
  | Except.ok _ => false

/-! ### `LLMClientWrapper.load_tools` (wrapper.py lines 66-144)

Modelled state: `cachedToolNames` is the usable cached payload (the names in
`cached_tools_data`; `[]` covers a missing cache adapter, a miss, an expired
or errored entry — all leave `cached_tools_data` falsy); `rawMapNames` is the
current `_raw_available_tools_from_mcp` key set; `additionalTools` is the
constructor field (`none` = Python `None`); `mcpFetch` is `none` when no MCP
client is configured, otherwise the outcome of `mcp_client.get_tools`.
The result is the returned `available_tools_for_llm` (which the method also
stores as the catalog), by tool name; `convert_tools_to_openai_format` is a
per-tool reshaping and is modelled as the identity on names.  `.error`
models an exception escaping `load_tools`. -/

/-- `live_tools = self.additional_tools; if self.mcp_client: live_tools +=
await self.mcp_client.get_tools(...)` followed by iterating `live_tools`:
`+=` on `None` raises `TypeError` (after the awaited fetch resolves), and
iterating `None` (no MCP client configured) also raises `TypeError`. -/
def liveToolsConcat (additionalTools : Option (List PyStr))
    (mcpFetch : Option (Except PyStr (List PyStr))) : Except PyStr (List PyStr) :=
  match mcpFetch with
  | some r => do
      let ts ← r
      match additionalTools with
      | none =>
          Except.error (ps "TypeError: unsupported operand type(s) for +=: 'NoneType' and 'list'")
      | some l => Except.ok (l ++ ts)
  | none =>
      match additionalTools with
      | none => Except.error (ps "TypeError: 'NoneType' object is not iterable")
      | some l => Except.ok l

/-- `load_tools`.  The cache-hit branch (lines 86-104) runs outside the
`try`, so its exceptions escape; the fetch branch (lines 106-144) is wrapped
in `try ... except` that degrades any exception to an empty catalog. -/
def loadTools (cachedToolNames : List PyStr) (rawMapNames : List PyStr)
    (additionalTools : Option (List PyStr))
    (mcpFetch : Option (Except PyStr (List PyStr))) : Except PyStr (List PyStr) :=
  if cachedToolNames ≠ [] then
    match (if rawMapNames = [] then liveToolsConcat additionalTools mcpFetch
           else Except.ok rawMapNames) with
    | Except.error e => Except.error e
    | Except.ok rawNames =>
        Except.ok (cachedToolNames.filter (fun n => rawNames.contains n))
  else
    match liveToolsConcat additionalTools mcpFetch with
    | Except.ok live => Except.ok live
    | Except.error _ => Except.ok []

/-! ### Concrete instances used by witnesses and counterexamples -/

/-- Shorthand constructor for `ToolCallDelta`. -/
def tcd (i : Nat) (idv ty nm args : PyStr) : ToolCallDelta :=
  { index := i, id := idv, type := ty, name := nm, arguments := args }

/-- Shorthand constructor for `StreamDelta`. -/
def sdelta (c r : PyStr) (tcs : List ToolCallDelta) : StreamDelta :=
  { content := c, reasoning := r, toolCalls := tcs }

/-- A delta carrying only an argument fragment for index `i`. -/
def argDelta (i : Nat) (f : PyStr) : ToolCallDelta :=
  { index := i, id := [], type := [], name := [], arguments := f }

/-- Irrelevant default used with `List.getD` (positions are always in range
where it appears). -/
def defaultToolCall : ChatToolCall :=
  { id := [], type := [], name := [], arguments := [] }

/-- Irrelevant default used with `List.getD`. -/
def defaultMessage : ChatMessage := ChatMessage.tool [] []

/-- A model that answers every history with one tool call and no content. -/
def modelC1 : List ChatMessage → Except PyStr (List StreamDelta) :=
  fun _ => Except.ok [sdelta [] [] [tcd 0 (ps "cid") (ps "function") (ps "t") emptyObjStr]]

/-- A run configuration around `modelC1`. -/
def cfgC1 : LoopConfig :=
  { jsonOk := fun _ => true, catalog := [ps "t"], exec := fun _ _ => Except.ok (ps "out"),
    model := modelC1, stream := false }

/-- A model that answers with one tool call until the history has grown to 29
entries (the state after 14 tool turns starting from a single user message)
and then answers with plain text content: its final answer arrives exactly on
iteration 15. -/
def modelC3 (h : List ChatMessage) : Except PyStr (List StreamDelta) :=
  if h.length ≥ 29 then Except.ok [sdelta (ps "done") [] []]
  else Except.ok [sdelta [] [] [tcd 0 (ps "cid") (ps "function") (ps "t") emptyObjStr]]

/-- A run configuration around `modelC3`. -/
def cfgC3 : LoopConfig :=
  { jsonOk := fun _ => true, catalog := [ps "t"], exec := fun _ _ => Except.ok (ps "out"),
    model := modelC3, stream := false }

/-- A configuration whose tool `t2` raises on execution. -/
def cfgC5 : LoopConfig :=
  { jsonOk := fun _ => true, catalog := [ps "t1", ps "t2", ps "t3"],
    exec := fun n _ => if n = ps "t2" then Except.error (ps "boom") else Except.ok (ps "ok"),
    model := fun _ => Except.ok [], stream := false }

/-- A four-call turn under `cfgC5`: the second call raises and the third
call's name misses the catalog; the first and fourth succeed. -/
def tcsC5 : List ChatToolCall :=
  [{ id := ps "id1", type := ps "function", name := ps "t1", arguments := emptyObjStr },
   { id := ps "id2", type := ps "function", name := ps "t2", arguments := emptyObjStr },
   { id := ps "id3", type := ps "function", name := ps "missing", arguments := emptyObjStr },
   { id := ps "id4", type := ps "function", name := ps "t3", arguments := emptyObjStr }]

/-- A `json.loads` success model that accepts exactly the string `"{}"`. -/
def jkOnlyEmptyObj : PyStr → Bool := fun s => s == emptyObjStr

/-- A raw accumulated call whose argument string is not valid JSON. -/
def rawC6 : RawToolCall :=
  { id := ps "cid", type := ps "function", name := ps "t", arguments := ps "not json" }

/-! ### Supporting lemmas -/

lemma listUpd_length (l : List α) (i : Nat) (f : α → α) :
    (listUpd l i f).length = l.length := by
  induction l generalizing i with
  | nil => rfl
  | cons x xs ih => cases i with
    | zero => rfl
    | succ j => simp [listUpd, ih]

lemma listUpd_listUpd (l : List α) (i : Nat) (f g : α → α) :
    listUpd (listUpd l i f) i g = listUpd l i (fun x => g (f x)) := by
  induction l generalizing i with
  | nil => rfl
  | cons x xs ih => cases i with
    | zero => rfl
    | succ j => simp [listUpd, ih]

lemma listUpd_congrFn (l : List α) (i : Nat) (f g : α → α) (h : ∀ x, f x = g x) :
    listUpd l i f = listUpd l i g := by
  induction l generalizing i with
  | nil => rfl
  | cons x xs ih => cases i with
    | zero => simp [listUpd, h]
    | succ j => simp [listUpd, ih]

lemma listUpd_id (l : List α) (i : Nat) : listUpd l i (fun x => x) = l := by
  induction l generalizing i with
  | nil => rfl
  | cons x xs ih => cases i with
    | zero => rfl
    | succ j => simp [listUpd, ih]

lemma padAux_fst_length : ∀ (n : Nat) (acc : List RawToolCall) (k : Nat),
    ((padAux n acc k).1).length = acc.length + n := by
  intro n
  induction n with
  | zero => intro acc k; rfl
  | succ m ih => intro acc k; simp [padAux, ih]; omega

lemma padToolCalls_of_lt (acc : List RawToolCall) (i k : Nat) (h : i < acc.length) :
    padToolCalls acc i k = (acc, k) := by
  unfold padToolCalls
  have h0 : i + 1 - acc.length = 0 := by omega
  rw [h0]
  rfl

lemma applyArgsFragment (acc : List RawToolCall) (k i : Nat) (f : PyStr)
    (h : i < acc.length) :
    applyToolCallDelta (acc, k) (argDelta i f)
      = (listUpd acc i (fun c => { c with arguments := c.arguments ++ f }), k) := by
  simp only [applyToolCallDelta, argDelta]
  rw [padToolCalls_of_lt _ _ _ h]
  by_cases hf : f = []
  · subst hf
    refine congrArg (fun l => (l, k)) ?_
    apply listUpd_congrFn
    intro x
    simp [updateRawToolCall]
  · refine congrArg (fun l => (l, k)) ?_
    apply listUpd_congrFn
    intro x
    simp [updateRawToolCall, hf]

lemma foldArgsFragments (fs : List PyStr) :
    ∀ (acc : List RawToolCall) (k i : Nat), i < acc.length →
    fs.foldl (fun st f => applyToolCallDelta st (argDelta i f)) (acc, k)
      = (listUpd acc i (fun c => { c with arguments := c.arguments ++ fs.flatten }), k) := by
  induction fs with
  | nil =>
      intro acc k i _
      simp only [List.foldl_nil, List.flatten_nil]
      refine congrArg (fun l => (l, k))
        (Eq.symm (Eq.trans (listUpd_congrFn _ _ _ (fun x => x) ?_) (listUpd_id _ _)))
      intro x
      simp
  | cons f fs ih =>
      intro acc k i h
      rw [List.foldl_cons, applyArgsFragment acc k i f h]
      rw [ih _ k i (by rw [listUpd_length]; exact h)]
      rw [listUpd_listUpd]
      refine congrArg (fun l => (l, k)) ?_
      apply listUpd_congrFn
      intro x
      simp [List.append_assoc]

lemma stepDeltaEvents_filter_error (s : Bool) (d : StreamDelta) :
    (stepDeltaEvents s d).filter isErrorEvent = [] := by
  cases s <;> by_cases hc : d.content ≠ [] <;> by_cases hr : d.reasoning ≠ [] <;>
    simp [stepDeltaEvents, hc, hr, isErrorEvent]

lemma runTurnAux_filter_error (s : Bool) (ds : List StreamDelta) (st : TurnAcc) :
    ((runTurnAux s ds st).2).filter isErrorEvent = [] := by
  induction ds generalizing st with
  | nil => rfl
  | cons d rest ih =>
      simp [runTurnAux, List.filter_append, stepDeltaEvents_filter_error, ih]

lemma runTurnStream_filter_error (s : Bool) (ds : List StreamDelta) (k : Nat) :
    ((runTurnStream s ds k).2).filter isErrorEvent = [] :=
  runTurnAux_filter_error s ds _

lemma execOneCall_filter_error (jk : PyStr → Bool) (cat : List PyStr)
    (ex : PyStr → PyStr → Except PyStr PyStr) (st : Bool) (tc : ChatToolCall) :
    ((execOneCall jk cat ex st tc).2).filter isErrorEvent = [] := by
  cases st <;>
  · unfold execOneCall execResolvedCall
    split
    · split
      · split <;> rfl
      · rfl
    · rfl

lemma execToolCalls_filter_error (jk : PyStr → Bool) (cat : List PyStr)
    (ex : PyStr → PyStr → Except PyStr PyStr) (st : Bool) (tcs : List ChatToolCall) :
    ((execToolCalls jk cat ex st tcs).2).filter isErrorEvent = [] := by
  induction tcs with
  | nil => rfl
  | cons tc rest ih =>
      simp [execToolCalls, List.filter_append, execOneCall_filter_error, ih]

lemma execToolCalls_fst_map (jk : PyStr → Bool) (cat : List PyStr)
    (ex : PyStr → PyStr → Except PyStr PyStr) (st : Bool) (tcs : List ChatToolCall) :
    (execToolCalls jk cat ex st tcs).1
      = tcs.map (fun tc => (execOneCall jk cat ex st tc).1) := by
  induction tcs with
  | nil => rfl
  | cons tc rest ih => simp [execToolCalls, ih]

lemma getD_map_lt (f : α → β) (l : List α) (j : Nat) (d : β) (d0 : α)
    (h : j < l.length) : (l.map f).getD j d = f (l.getD j d0) := by
  induction l generalizing j with
  | nil => exact absurd h (Nat.not_lt_zero j)
  | cons x xs ih => cases j with
    | zero => rfl
    | succ m =>
        simp only [List.map_cons, List.getD_cons_succ]
        exact ih m (by simpa using h)

lemma chatLoopAux_allToolTurns (cfg : LoopConfig)
    (Htc : ∀ h k, ∃ ds, cfg.model h = Except.ok ds ∧
        finalizeToolCalls cfg.jsonOk (runTurnStream cfg.stream ds k).1.toolCallsRaw ≠ []) :
    ∀ (fuel : Nat) (h : List ChatMessage) (k count : Nat), count + fuel = maxIterations →
      (chatLoopAux cfg fuel h k count).2.2 = maxIterations ∧
      ((chatLoopAux cfg fuel h k count).1).filter isErrorEvent = [] := by
  intro fuel
  induction fuel with
  | zero =>
      intro h k count hcnt
      refine ⟨?_, rfl⟩
      show count = maxIterations
      omega
  | succ n ih =>
      intro h k count hcnt
      have hlt : count < maxIterations := by omega
      obtain ⟨ds, hm, htc⟩ := Htc h k
      simp only [chatLoopAux, if_pos hlt, hm, if_pos htc]
      refine ⟨(ih _ _ _ (by omega)).1, ?_⟩
      rw [List.filter_append, List.filter_append, runTurnStream_filter_error,
        execToolCalls_filter_error, (ih _ _ _ (by omega)).2]
      rfl

lemma ensureSystem_hasSystem (s : PyStr) (h : List ChatMessage) :
    hasSystemMessage (ensureSystem (some s) h) = true := by
  show hasSystemMessage (if hasSystemMessage h = true then h
      else ChatMessage.system s :: h) = true
  by_cases hs : hasSystemMessage h = true
  · rw [if_pos hs]; exact hs
  · rw [if_neg hs]; rfl

lemma ensureSystem_idem (sp : Option PyStr) (h : List ChatMessage) :
    ensureSystem sp (ensureSystem sp h) = ensureSystem sp h := by
  cases sp with
  | none => rfl
  | some s =>
      show (if hasSystemMessage (ensureSystem (some s) h) = true then ensureSystem (some s) h
            else ChatMessage.system s :: ensureSystem (some s) h) = ensureSystem (some s) h
      rw [if_pos (ensureSystem_hasSystem s h)]

lemma getLast?_ensureSystem (sp : Option PyStr) (h : List ChatMessage) (hne : h ≠ []) :
    (ensureSystem sp h).getLast? = h.getLast? := by
  cases sp with
  | none => rfl
  | some s =>
      show (if hasSystemMessage h = true then h
            else ChatMessage.system s :: h).getLast? = h.getLast?
      by_cases hs : hasSystemMessage h = true
      · rw [if_pos hs]
      · rw [if_neg hs]
        cases h with
        | nil => exact absurd rfl hne
        | cons x t => exact List.getLast?_cons_cons

/-! ### Claim theorems -/

/-- C1: for every model that on every turn responds with at least one tool
call (so the turn never terminates the loop), `chat_completion_with_tools`
terminates after exactly `max_iterations = 15` loop iterations, emits exactly
one `"error"`-tagged event — the iteration-limit message — and emits no
`"error"`-tagged event before it (the limit error is the last event). -/
theorem c1_always_tool_calls_terminates (cfg : LoopConfig) (sp : Option PyStr)
    (h0 : List ChatMessage) (u : PyStr)
    (Htc : ∀ h k, ∃ ds, cfg.model h = Except.ok ds ∧
        finalizeToolCalls cfg.jsonOk (runTurnStream cfg.stream ds k).1.toolCallsRaw ≠ []) :
    (chatCompletionWithTools cfg sp h0 u).2.2 = maxIterations ∧
    ((chatCompletionWithTools cfg sp h0 u).1).filter isErrorEvent
        = [StreamEvent.error recursionLimitMessage] ∧
    ((chatCompletionWithTools cfg sp h0 u).1).getLast?
        = some (StreamEvent.error recursionLimitMessage) := by
  have hmain := chatLoopAux_allToolTurns cfg Htc maxIterations (prepTurn sp h0 u) 0 0 (by omega)
  simp only [chatCompletionWithTools]
  rw [hmain.1, if_pos (le_refl maxIterations)]
  refine ⟨rfl, ?_, ?_⟩
  · rw [List.filter_append, hmain.2]
    rfl
  · exact List.getLast?_concat _

/-- Witness for C1 at a concrete configuration: the model always answers
with one tool call, and the run ends with the single iteration-limit error
after 15 iterations. -/
theorem c1_always_tool_calls_terminates_witness :
    (chatCompletionWithTools cfgC1 none [] (ps "hi")).2.2 = maxIterations ∧
    ((chatCompletionWithTools cfgC1 none [] (ps "hi")).1).filter isErrorEvent
        = [StreamEvent.error recursionLimitMessage] ∧
    ((chatCompletionWithTools cfgC1 none [] (ps "hi")).1).getLast?
        = some (StreamEvent.error recursionLimitMessage) :=
  c1_always_tool_calls_terminates cfgC1 none [] (ps "hi")
    (fun _ k => ⟨_, rfl, by
      simp [runTurnStream, runTurnAux, stepDeltaAcc, applyToolCallDelta, padToolCalls,
        padAux, listUpd, updateRawToolCall, finalizeToolCalls, modelC1, cfgC1,
        sdelta, tcd, ps, emptyObjStr]⟩)

/-- C2 counterexample: a tool call whose name arrives in two nonempty
fragments (`"ab"` then `"cd"`) does not reconstruct to the unfragmented call
(name `"abcd"`): name deltas overwrite instead of appending, so the final
name is the last fragment `"cd"`. -/
theorem c2_name_fragmentation_counterexample :
    finalizeToolCalls (fun _ => true)
        (accumulateToolCallDeltas
          [tcd 0 (ps "id1") (ps "function") (ps "ab") emptyObjStr,
           tcd 0 [] [] (ps "cd") []] 0)
      ≠ finalizeToolCalls (fun _ => true)
        (accumulateToolCallDeltas
          [tcd 0 (ps "id1") (ps "function") (ps "abcd") emptyObjStr] 0) := by
  decide

/-- C2 amended: for a tool call at a fixed index whose id, type and name
arrive in one delta, any partition of the argument-JSON string into ordered
fragments reconstructs the same accumulator entry as the unfragmented
delivery; name fragmentation is excluded because the accumulator overwrites
the name with each nonempty name fragment (see the counterexample). -/
theorem c2_argument_fragmentation_reconstruction (i : Nat) (idv ty nm : PyStr)
    (frags : List PyStr) (k : Nat) :
    accumulateToolCallDeltas (tcd i idv ty nm [] :: frags.map (argDelta i)) k
      = accumulateToolCallDeltas [tcd i idv ty nm frags.flatten] k := by
  unfold accumulateToolCallDeltas
  rw [List.foldl_cons, List.foldl_cons, List.foldl_nil, List.foldl_map]
  have h1 : applyToolCallDelta ([], k) (tcd i idv ty nm [])
      = (listUpd (padToolCalls [] i k).1 i (updateRawToolCall (tcd i idv ty nm [])),
         (padToolCalls [] i k).2) := rfl
  have h2 : applyToolCallDelta ([], k) (tcd i idv ty nm frags.flatten)
      = (listUpd (padToolCalls [] i k).1 i (updateRawToolCall (tcd i idv ty nm frags.flatten)),
         (padToolCalls [] i k).2) := rfl
  rw [h1, h2]
  have hlen : i < (listUpd (padToolCalls [] i k).1 i
      (updateRawToolCall (tcd i idv ty nm []))).length := by
    rw [listUpd_length]
    unfold padToolCalls
    rw [padAux_fst_length]
    omega
  rw [foldArgsFragments frags _ _ i hlen]
  rw [listUpd_listUpd]
  apply congrArg Prod.fst
  apply congrArg (fun l => (l, (padToolCalls [] i k).2))
  apply listUpd_congrFn
  intro x
  by_cases hJ : frags.flatten = []
  · simp [updateRawToolCall, tcd, hJ]
  · simp [updateRawToolCall, tcd, hJ]

/-- C3 (code bug): under `cfgC3` the model answers with a tool call on the
first 14 iterations and with plain text content on the 15th, so the final
answer arrives on iteration `max_iterations` exactly.  The run then emits a
`"values"` event followed by an `"error"` event (the iteration-limit error
fires although a final answer was produced), ending with 15 iterations. -/
theorem c3_values_then_error_on_last_iteration :
    ((chatCompletionWithTools cfgC3 none [] (ps "hi")).1).map eventTag
        = [ps "values", ps "error"] ∧
    (chatCompletionWithTools cfgC3 none [] (ps "hi")).2.2 = maxIterations := by
  decide

/-- C4: when fetching tools for at least one configured connection fails,
the `asyncio.gather` fan-out of `BBServerMCPClient.get_tools` propagates the
failure as an exception — the acquisition never returns a catalog (empty or
otherwise) in its place. -/
theorem c4_catalog_fetch_failure_propagates (fetch : PyStr → Except PyStr (List PyStr))
    (conns : List PyStr) (hfail : ∃ c ∈ conns, ∃ e, fetch c = Except.error e) :
    exceptIsError (gatherToolFetches fetch conns) = true := by
  induction conns with
  | nil =>
      obtain ⟨c, hc, _⟩ := hfail
      exact absurd hc (List.not_mem_nil c)
  | cons c rest ih =>
      obtain ⟨c', hc', e, he⟩ := hfail
      unfold gatherToolFetches
      rcases List.mem_cons.mp hc' with rfl | hmem
      · rw [he]; rfl
      · cases hf : fetch c with
        | error e0 => rfl
        | ok ts =>
            have hrec := ih ⟨c', hmem, e, he⟩
            cases hg : gatherToolFetches fetch rest with
            | error e1 => rfl
            | ok rs =>
                rw [hg] at hrec
                simp [exceptIsError] at hrec

/-- Witness for C4: a single connection whose fetch raises makes the
fan-out propagate the error. -/
theorem c4_catalog_fetch_failure_propagates_witness :
    exceptIsError (gatherToolFetches (fun _ => Except.error (ps "boom")) [ps "c1"]) = true :=
  c4_catalog_fetch_failure_propagates _ _
    ⟨ps "c1", List.mem_singleton.mpr rfl, ps "boom", rfl⟩

/-- C5: for every turn whose assistant message carries the tool calls
`tcs`, (a) exactly one Tool message per call is produced, (b) in the model's
original call order (the message list is the call-wise map), (c) a call
whose execution raises still yields its Tool message, carrying the
error-describing payload, (c') a call whose name misses the catalog still
yields its Tool message, carrying the not-found payload, and (d) the loop
commits the whole batch to history at once — the next iteration starts from
`history ++ [assistant] ++ all-tool-messages`, only after every call of the
turn has been processed. -/
theorem c5_per_call_fault_isolation (cfg : LoopConfig) (tcs : List ChatToolCall) :
    ((execToolCalls cfg.jsonOk cfg.catalog cfg.exec cfg.stream tcs).1).length = tcs.length ∧
    (execToolCalls cfg.jsonOk cfg.catalog cfg.exec cfg.stream tcs).1
      = tcs.map (fun tc => (execOneCall cfg.jsonOk cfg.catalog cfg.exec cfg.stream tc).1) ∧
    (∀ (j : Nat) (e : PyStr), j < tcs.length →
      cfg.jsonOk ((tcs.getD j defaultToolCall).arguments) = true →
      cfg.catalog.contains ((tcs.getD j defaultToolCall).name) = true →
      cfg.exec ((tcs.getD j defaultToolCall).name)
          ((tcs.getD j defaultToolCall).arguments) = Except.error e →
      ((execToolCalls cfg.jsonOk cfg.catalog cfg.exec cfg.stream tcs).1).getD j defaultMessage
        = ChatMessage.tool ((tcs.getD j defaultToolCall).id)
            (ps "Error executing tool '" ++ (tcs.getD j defaultToolCall).name ++ ps "': " ++ e)) ∧
    (∀ (j : Nat), j < tcs.length →
      cfg.jsonOk ((tcs.getD j defaultToolCall).arguments) = true →
      cfg.catalog.contains ((tcs.getD j defaultToolCall).name) = false →
      ((execToolCalls cfg.jsonOk cfg.catalog cfg.exec cfg.stream tcs).1).getD j defaultMessage
        = ChatMessage.tool ((tcs.getD j defaultToolCall).id)
            (ps "Error: Tool '" ++ (tcs.getD j defaultToolCall).name
              ++ ps "' not found. Ensure tool is correctly loaded in MCP.")) ∧
    (∀ (fuel : Nat) (h : List ChatMessage) (k count : Nat) (ds : List StreamDelta),
      count < maxIterations → cfg.model h = Except.ok ds →
      finalizeToolCalls cfg.jsonOk (runTurnStream cfg.stream ds k).1.toolCallsRaw = tcs →
      tcs ≠ [] →
      chatLoopAux cfg (fuel + 1) h k count
        = ((runTurnStream cfg.stream ds k).2
            ++ (execToolCalls cfg.jsonOk cfg.catalog cfg.exec cfg.stream tcs).2
            ++ (chatLoopAux cfg fuel
                  (h ++ [assistantOf (runTurnStream cfg.stream ds k).1 tcs]
                    ++ (execToolCalls cfg.jsonOk cfg.catalog cfg.exec cfg.stream tcs).1)
                  ((runTurnStream cfg.stream ds k).1.nextFresh) (count + 1)).1,
          (chatLoopAux cfg fuel
              (h ++ [assistantOf (runTurnStream cfg.stream ds k).1 tcs]
                ++ (execToolCalls cfg.jsonOk cfg.catalog cfg.exec cfg.stream tcs).1)
              ((runTurnStream cfg.stream ds k).1.nextFresh) (count + 1)).2.1,
          (chatLoopAux cfg fuel
              (h ++ [assistantOf (runTurnStream cfg.stream ds k).1 tcs]
                ++ (execToolCalls cfg.jsonOk cfg.catalog cfg.exec cfg.stream tcs).1)
              ((runTurnStream cfg.stream ds k).1.nextFresh) (count + 1)).2.2)) := by
  refine ⟨?_, execToolCalls_fst_map _ _ _ _ _, ?_, ?_, ?_⟩
  · rw [execToolCalls_fst_map]
    exact List.length_map _ _
  · intro j e hj hjson hcat hex
    rw [execToolCalls_fst_map, getD_map_lt _ _ _ _ defaultToolCall hj]
    simp only [execOneCall, execResolvedCall, hjson, hcat, hex, if_true]
  · intro j hj hjson hcat
    rw [execToolCalls_fst_map, getD_map_lt _ _ _ _ defaultToolCall hj]
    have hne : ¬(cfg.catalog.contains ((tcs.getD j defaultToolCall).name) = true) := by
      rw [hcat]
      exact Bool.false_ne_true
    simp only [execOneCall, execResolvedCall, hjson, if_true]
    rw [if_neg hne]
  · intro fuel h k count ds hlt hm hfin hne
    simp only [chatLoopAux, if_pos hlt, hm, hfin, if_pos hne]

/-- Witness for C5: a four-call turn under `cfgC5` whose second tool raises
`boom` and whose third call names a tool missing from the catalog; all four
Tool messages are produced, in order, the second carrying the execution
error payload and the third the not-found payload. -/
theorem c5_per_call_fault_isolation_witness :
    ((execToolCalls cfgC5.jsonOk cfgC5.catalog cfgC5.exec cfgC5.stream tcsC5).1).length
        = tcsC5.length ∧
    (execToolCalls cfgC5.jsonOk cfgC5.catalog cfgC5.exec cfgC5.stream tcsC5).1
      = tcsC5.map (fun tc => (execOneCall cfgC5.jsonOk cfgC5.catalog cfgC5.exec cfgC5.stream tc).1) ∧
    ((execToolCalls cfgC5.jsonOk cfgC5.catalog cfgC5.exec cfgC5.stream tcsC5).1).getD 1 defaultMessage
      = ChatMessage.tool (ps "id2") (ps "Error executing tool 't2': boom") ∧
    ((execToolCalls cfgC5.jsonOk cfgC5.catalog cfgC5.exec cfgC5.stream tcsC5).1).getD 2 defaultMessage
      = ChatMessage.tool (ps "id3")
          (ps "Error: Tool 'missing' not found. Ensure tool is correctly loaded in MCP.") := by
  have h := c5_per_call_fault_isolation cfgC5 tcsC5
  exact ⟨h.1, h.2.1,
    h.2.2.1 1 (ps "boom") (by decide) rfl (by decide) rfl,
    h.2.2.2.1 2 (by decide) rfl (by decide)⟩

/-- C6: after finalization with `"{}"`-coercion, every tool call's argument
string parses (given that `"{}"` itself parses), the coerced call of an
unparsable accumulator entry carries exactly `"{}"`, and execution always
takes the resolved branch — the execution-time malformed-arguments branch
(and its error message and event) is unreachable. -/
theorem c6_malformed_arguments_coerced (jk : PyStr → Bool) (cat : List PyStr)
    (ex : PyStr → PyStr → Except PyStr PyStr) (st : Bool) (r : RawToolCall)
    (hempty : jk emptyObjStr = true) :
    jk (finalizeRawToolCall jk r).arguments = true ∧
    (jk r.arguments = false →
      finalizeRawToolCall jk r
        = { id := r.id, type := ps "function", name := r.name, arguments := emptyObjStr }) ∧
    execOneCall jk cat ex st (finalizeRawToolCall jk r)
      = execResolvedCall cat ex st (finalizeRawToolCall jk r) := by
  cases hb : jk r.arguments with
  | true =>
      have hfin : jk (finalizeRawToolCall jk r).arguments = true := by
        simp [finalizeRawToolCall, hb]
      refine ⟨hfin, ?_, ?_⟩
      · intro hcontra
        exact Bool.noConfusion hcontra
      · unfold execOneCall
        rw [if_pos hfin]
  | false =>
      have hfin : jk (finalizeRawToolCall jk r).arguments = true := by
        simp [finalizeRawToolCall, hb, hempty]
      refine ⟨hfin, ?_, ?_⟩
      · intro _
        simp [finalizeRawToolCall, hb]
      · unfold execOneCall
        rw [if_pos hfin]

/-- Witness for C6: under a `json.loads` model accepting exactly `"{}"`, the
call `rawC6` (arguments `"not json"`) is coerced to `"{}"` and executes
through the resolved branch. -/
theorem c6_malformed_arguments_coerced_witness :
    jkOnlyEmptyObj (finalizeRawToolCall jkOnlyEmptyObj rawC6).arguments = true ∧
    finalizeRawToolCall jkOnlyEmptyObj rawC6
      = { id := ps "cid", type := ps "function", name := ps "t", arguments := emptyObjStr } ∧
    execOneCall jkOnlyEmptyObj [] (fun _ _ => Except.ok []) false
        (finalizeRawToolCall jkOnlyEmptyObj rawC6)
      = execResolvedCall [] (fun _ _ => Except.ok []) false
        (finalizeRawToolCall jkOnlyEmptyObj rawC6) := by
  have h := c6_malformed_arguments_coerced jkOnlyEmptyObj [] (fun _ _ => Except.ok [])
    false rawC6 (by decide)
  exact ⟨h.1, h.2.1 (by decide), h.2.2⟩

/-- C7: when the last history entry is already a user message with content
identical to the new utterance, entering the loop appends nothing (only the
system-prompt insertion may apply), and entering twice with the same
utterance is idempotent — no duplicate consecutive user messages arise. -/
theorem c7_idempotent_user_append (sp : Option PyStr) (h : List ChatMessage) (u : PyStr)
    (hlast : h.getLast? = some (ChatMessage.user u)) :
    prepTurn sp h u = ensureSystem sp h ∧
    prepTurn sp (prepTurn sp h u) u = prepTurn sp h u := by
  have hne : h ≠ [] := by
    intro he
    rw [he] at hlast
    simp at hlast
  have h1 : (ensureSystem sp h).getLast? = some (ChatMessage.user u) := by
    rw [getLast?_ensureSystem sp h hne, hlast]
  have hguard : appendUserGuard (ensureSystem sp h) u = ensureSystem sp h := by
    unfold appendUserGuard
    rw [h1]
    simp [isSameUserMessage]
  refine ⟨hguard, ?_⟩
  show appendUserGuard (ensureSystem sp (prepTurn sp h u)) u = prepTurn sp h u
  rw [show prepTurn sp h u = ensureSystem sp h from hguard, ensureSystem_idem]
  exact hguard

/-- Witness for C7 at a concrete history ending in the identical user turn. -/
theorem c7_idempotent_user_append_witness :
    ([ChatMessage.user (ps "hi")].getLast? = some (ChatMessage.user (ps "hi"))) ∧
    (prepTurn none [ChatMessage.user (ps "hi")] (ps "hi")
        = ensureSystem none [ChatMessage.user (ps "hi")] ∧
     prepTurn none (prepTurn none [ChatMessage.user (ps "hi")] (ps "hi")) (ps "hi")
        = prepTurn none [ChatMessage.user (ps "hi")] (ps "hi")) :=
  ⟨rfl, c7_idempotent_user_append none [ChatMessage.user (ps "hi")] (ps "hi") rfl⟩

/-- C8: delivering two tool-call deltas with indices 1 then 0 yields the
same final accumulator (hence the same two-call list) as delivering them in
index order 0 then 1 — the accumulator pads with placeholders up to the
highest index seen, so positional content is arrival-order independent. -/
theorem c8_out_of_order_indices (id0 ty0 n0 a0 id1 ty1 n1 a1 : PyStr) (k : Nat) :
    accumulateToolCallDeltas [tcd 1 id1 ty1 n1 a1, tcd 0 id0 ty0 n0 a0] k
      = accumulateToolCallDeltas [tcd 0 id0 ty0 n0 a0, tcd 1 id1 ty1 n1 a1] k := rfl

/-- C9 counterexample: for the single chunk `'{limit}'` on a fresh
`ContentBuffer`, the claim "not filtered and emitted equals `'{limit}'`"
fails — the chunk is withheld (emitted content is empty), because
`_is_json_start` treats it as a potential JSON start.  (`jsonKeys` is
irrelevant on this input; `json.loads('{limit}')` fails, hence `none`.) -/
theorem c9_braced_identifier_counterexample :
    ¬((addChunk (fun _ => none) mkContentBuffer (ps "\x7blimit\x7d")).2.2 = false ∧
      (addChunk (fun _ => none) mkContentBuffer (ps "\x7blimit\x7d")).2.1
        = ps "\x7blimit\x7d") := by
  decide

/-- C9 amended: the chunk `'{limit}'` on a fresh buffer is not filtered
(`should_filter = false`) and is never classified as JSON-in-progress by
`_looks_like_streaming_json_start` (a bare identifier in braces has neither
a quote nor a colon), but nothing is emitted on that call: the chunk is
retained in the buffer because `_is_json_start` accepts any multi-character
content starting with `{`. -/
theorem c9_braced_identifier_buffered (jsonKeys : PyStr → Option (List PyStr)) :
    addChunk jsonKeys mkContentBuffer (ps "\x7blimit\x7d")
      = ({ buffer := ps "\x7blimit\x7d", maxBufferSize := 2000 }, ([], false)) ∧
    looksLikeStreamingJsonStart (ps "\x7blimit\x7d") = false ∧
    isJsonStart (ps "\x7blimit\x7d") = true :=
  ⟨rfl, by decide, by decide⟩

/-- C10 counterexample: with `additional_tools = None` and an MCP client
configured, a `load_tools` call that finds usable cached data while the
live-tool map is still empty raises the `TypeError` from `None += [...]`
uncaught (the cache-hit branch is outside the `try`), instead of returning
the empty list. -/
theorem c10_load_tools_cache_hit_raises :
    loadTools [ps "t"] [] none (some (Except.ok [ps "t"]))
      = Except.error (ps "TypeError: unsupported operand type(s) for +=: 'NoneType' and 'list'") :=
  rfl

/-- C10 amended: with `additional_tools = None` and an MCP client configured,
every `load_tools` call on which the cache yields no usable data (no cache,
miss, expired, or errored entry) returns the empty list and sets the catalog
empty, whatever the MCP fetch would provide: the `TypeError` from
concatenating onto `None` is swallowed by the blanket handler of the fetch
branch. -/
theorem c10_load_tools_fetch_path_empty (rawMap : List PyStr)
    (mcp : Except PyStr (List PyStr)) :
    loadTools [] rawMap none (some mcp) = Except.ok [] := by
  cases mcp <;> rfl

end Kebogyro
